import Mathlib

/-!
Shallow embedding of the review-scraper repository, covering the domain
model (src/models/review.py, src/models/source.py), the retry handler and
circuit breaker (src/core/retry_handler.py), the pagination loop
(src/core/base_scraper.py), the JSON storage backend
(src/storage/json_storage.py) and the CLI collection loop (cli/main.py).
Python dicts are modelled as association lists, Python floats as rationals,
datetimes as abstract natural-number timestamps, and raised exceptions as
Except / Option results.
-/

namespace ReviewScraper

/-- Python values appearing in serialized review dicts.  `vDatetime` models a
`datetime` object, which `json.dumps` cannot serialize. -/
inductive Value where
  | vInt : Int → Value
  | vStr : String → Value
  | vFloat : Rat → Value
  | vBool : Bool → Value
  | vDatetime : Nat → Value
deriving DecidableEq, Repr

/-- Whether `json.dumps` can serialize this value (no custom encoder is
passed in `JsonStorage.save`, so `datetime` raises `TypeError`). -/
def Value.jsonSerializable : Value → Bool
  | .vDatetime _ => false
  | _ => true

/-- A Python dict, modelled as an association list in insertion order. -/
abbrev Dict := List (String × Value)

/-- `Review` from src/models/review.py: required `id` and `text`, optional
metadata, and `scraped_at` which is always populated (default factory). -/
structure Review where
  id : Int
  text : String
  source : Option String := none
  source_url : Option String := none
  source_id : Option String := none
  rating : Option Rat := none
  title : Option String := none
  author : Option String := none
  date : Option Nat := none
  product_name : Option String := none
  product_id : Option String := none
  category : Option String := none
  helpful_count : Option Int := none
  verified : Option Bool := none
  language : Option String := none
  scraped_at : Nat
deriving DecidableEq, Repr

/-- The whitespace characters removed by Python's `str.strip()` (ASCII
fragment; the reviews in this development are ASCII). -/
def isPySpace (c : Char) : Bool :=
  c = ' ' || c = '\t' || c = '\n' || c = '\r' || c = '\x0b' || c = '\x0c'

/-- Python's `v.strip()`: drop leading and trailing whitespace. -/
def pyStrip (s : String) : String :=
  String.mk (((s.data.dropWhile isPySpace).reverse.dropWhile isPySpace).reverse)

/-- The `clean_text` field validator: `if not v: raise ValueError(...)`,
then `return v.strip()`.  The emptiness test runs before stripping. -/
def clean_text (v : String) : Except String String :=
  if v = "" then .error "Review text cannot be empty"
  else .ok (pyStrip v)

/-- Pydantic construction of a `Review` from raw field values: the field
constraints (`rating` in [0,5], `helpful_count` ≥ 0) and the `clean_text`
validator run; any violation raises a `ValidationError`. -/
def Review.validate (r : Review) : Except String Review :=
  match clean_text r.text with
  | .error e => .error e
  | .ok t =>
    if (match r.rating with | none => true | some q => decide (0 ≤ q ∧ q ≤ 5)) then
      if (match r.helpful_count with | none => true | some n => decide (0 ≤ n)) then
        .ok { r with text := t }
      else .error "helpful_count must be non-negative"
    else .error "rating must be between 0 and 5"

/-- `Review.to_export_dict`: the minimal export projection. -/
def Review.to_export_dict (r : Review) : Dict :=
  [("id", Value.vInt r.id), ("text", Value.vStr r.text)]

/-- Helper for `to_full_dict`: an optional field contributes a key only
when populated (`model_dump(exclude_none=True)`). -/
def optField (k : String) (f : α → Value) : Option α → Dict
  | none => []
  | some a => [(k, f a)]

/-- `Review.to_full_dict`: `model_dump(exclude_none=True)` in field
declaration order.  `scraped_at` is never `None`, so it always appears, as a
`datetime` value (python-mode dump performs no JSON encoding). -/
def Review.to_full_dict (r : Review) : Dict :=
  [("id", Value.vInt r.id), ("text", Value.vStr r.text)]
    ++ optField "source" Value.vStr r.source
    ++ optField "source_url" Value.vStr r.source_url
    ++ optField "source_id" Value.vStr r.source_id
    ++ optField "rating" Value.vFloat r.rating
    ++ optField "title" Value.vStr r.title
    ++ optField "author" Value.vStr r.author
    ++ optField "date" Value.vDatetime r.date
    ++ optField "product_name" Value.vStr r.product_name
    ++ optField "product_id" Value.vStr r.product_id
    ++ optField "category" Value.vStr r.category
    ++ optField "helpful_count" Value.vInt r.helpful_count
    ++ optField "verified" Value.vBool r.verified
    ++ optField "language" Value.vStr r.language
    ++ [("scraped_at", Value.vDatetime r.scraped_at)]

/-- `ReviewBatch` from src/models/review.py. -/
structure ReviewBatch where
  reviews : List Review := []
  source : Option String := none
  scraped_at : Nat
  total_count : Nat := 0
  page : Option Int := none
deriving DecidableEq, Repr

/-- `ReviewBatch.add`: append one review and recompute `total_count`. -/
def ReviewBatch.add (b : ReviewBatch) (r : Review) : ReviewBatch :=
  let reviews := b.reviews ++ [r]
  { b with reviews := reviews, total_count := reviews.length }

/-- `ReviewBatch.extend`: append several reviews and recompute `total_count`. -/
def ReviewBatch.extend (b : ReviewBatch) (rs : List Review) : ReviewBatch :=
  let reviews := b.reviews ++ rs
  { b with reviews := reviews, total_count := reviews.length }

/-- `ReviewBatch.to_export_list`: map every review to its export dict. -/
def ReviewBatch.to_export_list (b : ReviewBatch) : List Dict :=
  b.reviews.map Review.to_export_dict

/-! ## JSON storage (src/storage/json_storage.py) -/

/-- State of the output file of a `JsonStorage`. `empty` is a file that was
opened for writing (truncated) but received no content because `json.dumps`
raised before the write. -/
inductive FileState where
  | missing
  | empty
  | content : List Dict → FileState
deriving DecidableEq, Repr

/-- Dict lookup, `item["k"]` / pydantic keyword lookup. -/
def getKey (d : Dict) (k : String) : Option Value :=
  (d.find? (fun p => p.1 == k)).map (fun p => p.2)

/-- Read an optional string field during `Review(**item)`: absent key means
`None`; a value of the wrong type is a validation error (`none` result). -/
def readOptStr (d : Dict) (k : String) : Option (Option String) :=
  match getKey d k with
  | none => some none
  | some (.vStr s) => some (some s)
  | some _ => none

/-- Read an optional float field; pydantic coerces ints to floats. -/
def readOptFloat (d : Dict) (k : String) : Option (Option Rat) :=
  match getKey d k with
  | none => some none
  | some (.vFloat q) => some (some q)
  | some (.vInt i) => some (some (i : Rat))
  | some _ => none

/-- Read an optional int field. -/
def readOptInt (d : Dict) (k : String) : Option (Option Int) :=
  match getKey d k with
  | none => some none
  | some (.vInt i) => some (some i)
  | some _ => none

/-- Read an optional bool field. -/
def readOptBool (d : Dict) (k : String) : Option (Option Bool) :=
  match getKey d k with
  | none => some none
  | some (.vBool b) => some (some b)
  | some _ => none

/-- Read an optional datetime field. -/
def readOptDatetime (d : Dict) (k : String) : Option (Option Nat) :=
  match getKey d k with
  | none => some none
  | some (.vDatetime t) => some (some t)
  | some _ => none

/-- `Review(**item)` during `JsonStorage.load`: rebuild a review from a
stored dict and run the pydantic validators.  A missing `scraped_at` key
gets the default factory value `now`; any validation error makes the whole
construction fail (the caller skips the item). -/
def parseReview (now : Nat) (d : Dict) : Option Review :=
  match getKey d "id", getKey d "text" with
  | some (.vInt idv), some (.vStr textv) =>
    match readOptStr d "source", readOptStr d "source_url",
          readOptStr d "source_id", readOptFloat d "rating",
          readOptStr d "title", readOptStr d "author",
          readOptDatetime d "date" with
    | some sourcev, some source_urlv, some source_idv, some ratingv,
      some titlev, some authorv, some datev =>
      match readOptStr d "product_name", readOptStr d "product_id",
            readOptStr d "category", readOptInt d "helpful_count",
            readOptBool d "verified", readOptStr d "language",
            readOptDatetime d "scraped_at" with
      | some product_namev, some product_idv, some categoryv,
        some helpful_countv, some verifiedv, some languagev,
        some scraped_atv =>
        match Review.validate
          { id := idv, text := textv, source := sourcev,
            source_url := source_urlv, source_id := source_idv,
            rating := ratingv, title := titlev, author := authorv,
            date := datev, product_name := product_namev,
            product_id := product_idv, category := categoryv,
            helpful_count := helpful_countv, verified := verifiedv,
            language := languagev, scraped_at := scraped_atv.getD now } with
        | .ok r => some r
        | .error _ => none
      | _, _, _, _, _, _, _ => none
    | _, _, _, _, _, _, _ => none
  | _, _ => none

/-- `JsonStorage.save`: an empty list returns 0 without touching the file;
otherwise the reviews are projected through `to_full_dict`
(`include_metadata=True`) or `to_export_dict`, and `json.dumps` is applied.
`json.dumps` has no encoder for `datetime`, so a non-serializable value
raises `TypeError` after the file has already been opened in "w" mode
(truncating it); the handler catches the exception and returns 0. -/
def JsonStorage.save (include_metadata : Bool) (reviews : List Review)
    (file : FileState) : FileState × Nat :=
  if reviews.isEmpty then (file, 0)
  else
    let data := if include_metadata then reviews.map Review.to_full_dict
                else reviews.map Review.to_export_dict
    if data.all (fun d => d.all (fun p => p.2.jsonSerializable)) then
      (.content data, reviews.length)
    else
      (.empty, 0)

/-- `JsonStorage.load`: a missing or blank file yields `[]`; otherwise each
stored item is rebuilt with `Review(**item)`, skipping items that fail. -/
def JsonStorage.load (now : Nat) (file : FileState) : List Review :=
  match file with
  | .missing => []
  | .empty => []
  | .content data => data.filterMap (parseReview now)

/-- `export_to_training_format`: renumber sequentially from `start_id`
(`enumerate(reviews, start=start_id)`) and emit minimal records. -/
def renumber (start_id : Int) : List Review → List Dict
  | [] => []
  | r :: rs => [("id", Value.vInt start_id), ("text", Value.vStr r.text)]
      :: renumber (start_id + 1) rs

/-- `export_to_training_format` returns the written records (the file
content) together with `len(data)`, its return value. -/
def export_to_training_format (reviews : List Review) (start_id : Int) :
    List Dict × Nat :=
  let data := renumber start_id reviews
  (data, data.length)

/-! ## Source catalog (src/models/source.py) -/

/-- One entry of a category list in the YAML file; `cat_data.get` falls back
to defaults for missing keys. -/
structure RawCategoryEntry where
  name : Option String := none
  urls : Option (List String) := none
deriving DecidableEq, Repr

/-- One per-source mapping in the YAML file.  A missing key makes
`config.get(key, default)` return the default; a present key carries the
parsed YAML value. -/
structure RawSourceEntry where
  enabled : Option Bool := none
  scraper : Option String := none
  rate_limit_rpm : Option Int := none
  requires_browser : Option Bool := none
  categories : Option (List RawCategoryEntry) := none
deriving DecidableEq, Repr

/-- `SourceCategory` model. -/
structure SourceCategory where
  name : String
  urls : List String
deriving DecidableEq, Repr

/-- `Source` model. -/
structure Source where
  name : String
  enabled : Bool
  scraper : String
  rate_limit_rpm : Int
  requires_browser : Bool
  categories : List SourceCategory
deriving DecidableEq, Repr

/-- `SourceConfig` model: mapping of source name to `Source`, in file order. -/
structure SourceConfig where
  sources : List (String × Source)
deriving DecidableEq, Repr

/-- Failures `load_sources` can raise. -/
inductive LoadError where
  | fileNotFound
  | validationError : String → LoadError
deriving DecidableEq, Repr

/-- Pydantic construction of one `Source` inside `from_yaml`: missing keys
fall back to the documented defaults, but the `rate_limit_rpm` field
constraint (`ge=1, le=100`) is validated on the *present* value and raises
a `ValidationError` when violated. -/
def buildSource (name : String) (config : RawSourceEntry) :
    Except LoadError Source :=
  let categories := (config.categories.getD []).map
    (fun c => SourceCategory.mk (c.name.getD "default") (c.urls.getD []))
  let rpm := config.rate_limit_rpm.getD 20
  if 1 ≤ rpm ∧ rpm ≤ 100 then
    .ok { name := name, enabled := config.enabled.getD true,
          scraper := config.scraper.getD name, rate_limit_rpm := rpm,
          requires_browser := config.requires_browser.getD false,
          categories := categories }
  else .error (.validationError "rate_limit_rpm")

/-- Following the spec's words, for comparison with `buildSource`: the
source obtained by applying the documented defaults (`enabled=true`,
`rate_limit_rpm=20`, `requires_browser=false`, empty categories) to every
missing field of an entry. -/
def specDefaultedSource (name : String) (config : RawSourceEntry) : Source :=
  { name := name, enabled := config.enabled.getD true,
    scraper := config.scraper.getD name,
    rate_limit_rpm := config.rate_limit_rpm.getD 20,
    requires_browser := config.requires_browser.getD false,
    categories := (config.categories.getD []).map
      (fun c => SourceCategory.mk (c.name.getD "default") (c.urls.getD [])) }

/-- The `for name, config in data.items()` loop of `from_yaml`: the first
entry that fails validation raises out of the whole function. -/
def buildSources : List (String × RawSourceEntry) →
    Except LoadError (List (String × Source))
  | [] => .ok []
  | p :: rest =>
    match buildSource p.1 p.2 with
    | .error e => .error e
    | .ok s =>
      match buildSources rest with
      | .error e => .error e
      | .ok l => .ok ((p.1, s) :: l)

/-- `SourceConfig.from_yaml`: raises `FileNotFoundError` when the path does
not exist, otherwise builds every source from the parsed YAML mapping. -/
def SourceConfig.from_yaml (fileExists : Bool)
    (data : List (String × RawSourceEntry)) : Except LoadError SourceConfig :=
  if fileExists then
    match buildSources data with
    | .error e => .error e
    | .ok l => .ok { sources := l }
  else .error .fileNotFound

/-- `load_sources`: resolves the default catalog path and delegates to
`SourceConfig.from_yaml`. -/
def load_sources (fileExists : Bool)
    (data : List (String × RawSourceEntry)) : Except LoadError SourceConfig :=
  SourceConfig.from_yaml fileExists data

/-! ## Retry handler (src/core/retry_handler.py) -/

/-- `RetryHandler.RETRYABLE_STATUS_CODES`. -/
def RETRYABLE_STATUS_CODES : List Nat := [408, 429, 500, 502, 503, 504]

/-- Membership in the retryable status-code set. -/
def retryable_status (s : Nat) : Bool := RETRYABLE_STATUS_CODES.contains s

/-- What one invocation of the wrapped operation does: return a plain value,
return an `httpx.Response` with a status code, raise an exception of one of
the `RETRYABLE_EXCEPTIONS` classes, or raise an `httpx.HTTPStatusError`
carrying a status code. -/
inductive Outcome where
  | value : Nat → Outcome
  | response : Nat → Outcome
  | netError : Nat → Outcome
  | httpError : Nat → Outcome
deriving DecidableEq, Repr

/-- How the body of `RetryHandler.execute` treats one invocation:
return the result, schedule a retry carrying an exception, or re-raise a
non-retryable `HTTPStatusError` immediately. -/
inductive StepRes where
  | ret : Outcome → StepRes
  | retry : Outcome → StepRes
  | raiseNow : Outcome → StepRes
deriving DecidableEq, Repr

/-- One iteration of the `for attempt in range(...)` body: a returned
`Response` with a retryable status is converted into an `HTTPStatusError`
and retried; other returns succeed; `RETRYABLE_EXCEPTIONS` retry;
`HTTPStatusError` retries only for retryable statuses. -/
def step : Outcome → StepRes
  | .value v => .ret (.value v)
  | .response s =>
      if retryable_status s then .retry (.httpError s) else .ret (.response s)
  | .netError e => .retry (.netError e)
  | .httpError s =>
      if retryable_status s then .retry (.httpError s) else .raiseNow (.httpError s)

/-- Whether `step` classifies this invocation outcome as a retryable failure. -/
def stepFails (o : Outcome) : Bool :=
  match step o with
  | .retry _ => true
  | _ => false

/-- The exception `step` carries for a retryable failure. -/
def stepExc (o : Outcome) : Outcome :=
  match step o with
  | .retry e => e
  | .ret r => r
  | .raiseNow e => e

/-- Result of `RetryHandler.execute`: either the wrapped operation's result
was returned, or an exception propagated to the caller. -/
inductive ExecResult where
  | finished : Outcome → ExecResult
  | raised : Outcome → ExecResult
deriving DecidableEq, Repr

/-- The retry loop of `execute`.  `remaining` counts the iterations still
ahead of the current one (initially `max_retries`, since the range has
`max_retries + 1` entries); `attempt` is the 0-based index of the current
invocation.  When a retryable failure occurs with no iteration left
(`attempt >= max_retries`), `_handle_retry` re-raises the exception.
The second component is the total number of invocations performed. -/
def executeGo (outcomes : Nat → Outcome) : Nat → Nat → ExecResult × Nat
  | 0, attempt =>
    match step (outcomes attempt) with
    | .ret o => (.finished o, attempt + 1)
    | .raiseNow e => (.raised e, attempt + 1)
    | .retry e => (.raised e, attempt + 1)
  | r + 1, attempt =>
    match step (outcomes attempt) with
    | .ret o => (.finished o, attempt + 1)
    | .raiseNow e => (.raised e, attempt + 1)
    | .retry _ => executeGo outcomes r (attempt + 1)

/-- `RetryHandler.execute` for a handler with the given `max_retries`,
where `outcomes i` is what the wrapped operation does on its i-th call. -/
def RetryHandler.execute (max_retries : Nat) (outcomes : Nat → Outcome) :
    ExecResult × Nat :=
  executeGo outcomes max_retries 0

/-- `RetryHandler._calculate_delay`: exponential backoff with ±25% jitter
(`rand` models `random.random()`, a draw from [0,1]), clamped to
`max_delay` above and 0.1 below. -/
def calculate_delay (base_delay max_delay exponential_base : Rat)
    (attempt : Nat) (rand : Rat) : Rat :=
  let delay := base_delay * exponential_base ^ attempt
  let jitter := delay * (1 / 4) * (2 * rand - 1)
  max (1 / 10) (min (delay + jitter) max_delay)

/-! ## Circuit breaker (src/core/retry_handler.py) -/

/-- The three states of the circuit breaker. -/
inductive CBState where
  | closed
  | opened
  | halfOpen
deriving DecidableEq, Repr

/-- The per-key bookkeeping of `CircuitBreaker`, with the defaults the
dict lookups (`.get(key, ...)`) supply for an unseen key. -/
structure BreakerEntry where
  failures : Nat := 0
  successes : Nat := 0
  state : CBState := .closed
  lastFailureTime : Rat := 0
deriving DecidableEq, Repr

/-- Constructor parameters of `CircuitBreaker`. -/
structure CircuitBreaker where
  failure_threshold : Nat := 5
  recovery_timeout : Rat := 60
  success_threshold : Nat := 3
deriving DecidableEq, Repr

/-- `CircuitBreaker.can_proceed` at wall-clock time `now`: returns the
answer together with the (possibly updated) per-key entry. -/
def can_proceed (cb : CircuitBreaker) (e : BreakerEntry) (now : Rat) :
    Bool × BreakerEntry :=
  match e.state with
  | .closed => (true, e)
  | .opened =>
      if now - e.lastFailureTime > cb.recovery_timeout then
        (true, { e with state := .halfOpen, successes := 0 })
      else (false, e)
  | .halfOpen => (true, e)

/-- `CircuitBreaker.record_success`. -/
def record_success (cb : CircuitBreaker) (e : BreakerEntry) : BreakerEntry :=
  match e.state with
  | .halfOpen =>
      let s := e.successes + 1
      if s ≥ cb.success_threshold then
        { e with successes := s, state := .closed, failures := 0 }
      else { e with successes := s }
  | .closed => { e with failures := 0 }
  | .opened => e

/-- `CircuitBreaker.record_failure` at wall-clock time `now`. -/
def record_failure (cb : CircuitBreaker) (e : BreakerEntry) (now : Rat) :
    BreakerEntry :=
  let e2 : BreakerEntry :=
    { e with failures := e.failures + 1, lastFailureTime := now }
  match e2.state with
  | .halfOpen => { e2 with state := .opened }
  | .closed =>
      if e2.failures ≥ cb.failure_threshold then { e2 with state := .opened }
      else e2
  | .opened => e2

/-! ## Pagination loop (src/core/base_scraper.py) and CLI loop (cli/main.py) -/

/-- What `scrape_reviews` does for one page URL: raise, or return the
page's reviews in discovery order. -/
abbrev PageResult := Except Unit (List Review)

/-- The reviews a page contributes: a failing page contributes none. -/
def pageReviews : PageResult → List Review
  | .error _ => []
  | .ok rs => rs

/-- The Python guard `if max_reviews and total_reviews >= max_reviews`:
`None` and `0` are both falsy, so both disable the limit. -/
def limitReached (max_reviews : Option Int) (total : Nat) : Bool :=
  match max_reviews with
  | none => false
  | some m => m != 0 && decide (m ≤ (total : Int))

/-- The inner `for review in reviews` loop of `scrape_all_pages`: yield
each review, increment the running total, and return (stop the generator)
as soon as the limit guard fires.  Produces the yielded reviews, the new
total, and whether the generator returned. -/
def yieldPage (max_reviews : Option Int) :
    List Review → Nat → List Review × Nat × Bool
  | [], total => ([], total, false)
  | r :: rs, total =>
      if limitReached max_reviews (total + 1) then ([r], total + 1, true)
      else
        let res := yieldPage max_reviews rs (total + 1)
        (r :: res.1, res.2)

/-- The outer `for page_num, page_url in enumerate(pages)` loop: a page
whose scrape raises is logged and skipped (`continue`), leaving the total
unchanged; otherwise its reviews are yielded through `yieldPage`. -/
def scrapeGo (max_reviews : Option Int) : List PageResult → Nat → List Review
  | [], _ => []
  | page :: rest, total =>
    match page with
    | .error _ => scrapeGo max_reviews rest total
    | .ok reviews =>
      let res := yieldPage max_reviews reviews total
      if res.2.2 then res.1
      else res.1 ++ scrapeGo max_reviews rest res.2.1

/-- `BaseScraper.scrape_all_pages`: resolve the pages (here given as the
list of per-page scrape results in pagination order) and run the loop with
a running total starting at 0. -/
def scrape_all_pages (pages : List PageResult) (max_reviews : Option Int) :
    List Review :=
  scrapeGo max_reviews pages 0

/-- The inner `async for review in scraper.scrape_all_pages(...)` loop of
`_scrape_async`: append each review to `all_reviews` and break as soon as
the CLI-level guard (same falsy-zero test) fires. -/
def cliCollectUrl (max_reviews : Option Int) :
    List Review → List Review → List Review × Bool
  | [], acc => (acc, false)
  | r :: rs, acc =>
      let acc2 := acc ++ [r]
      if limitReached max_reviews acc2.length then (acc2, true)
      else cliCollectUrl max_reviews rs acc2

/-- The outer `for scrape_url in urls` loop of `_scrape_async`: each URL's
pages are scraped through `scrape_all_pages` (with the same `max_reviews`),
and after each URL the guard is checked again for the outer break. -/
def cliGo (max_reviews : Option Int) :
    List (List PageResult) → List Review → List Review
  | [], acc => acc
  | pages :: rest, acc =>
      let res := cliCollectUrl max_reviews (scrape_all_pages pages max_reviews) acc
      if res.2 then res.1
      else if limitReached max_reviews res.1.length then res.1
      else cliGo max_reviews rest res.1

/-- The review-collection phase of `_scrape_async`: `urls` is the per-URL
list of page scrape results; returns `all_reviews`. -/
def cliScrapeLoop (urls : List (List PageResult)) (max_reviews : Option Int) :
    List Review :=
  cliGo max_reviews urls []

/-! ## Concrete sample data used by witnesses -/

/-- A review with several optional metadata fields populated. -/
def sampleReviewMeta : Review :=
  { id := 1, text := "ok", rating := some 5, author := some "Ann",
    scraped_at := 0 }

/-- A review with the same id and text but no metadata. -/
def sampleReviewPlain : Review := { id := 1, text := "ok", scraped_at := 3 }

/-- A one-element batch. -/
def sampleBatch : ReviewBatch := { reviews := [sampleReviewMeta], scraped_at := 0 }

/-- Three reviews whose original ids are 7, 2 and 9. -/
def threeReviews : List Review :=
  [{ id := 7, text := "alpha", scraped_at := 0 },
   { id := 2, text := "beta", scraped_at := 0 },
   { id := 9, text := "gamma", scraped_at := 0 }]

/-- A numbered page review. -/
def pageReview (n : Int) : Review := { id := n, text := "p", scraped_at := 0 }

/-- Three pages in pagination order, the middle one failing. -/
def samplePages : List PageResult :=
  [.ok [pageReview 1, pageReview 2], .error (), .ok [pageReview 3, pageReview 4]]

end ReviewScraper

namespace ReviewScraper

/-! ## Theorems -/

/-- Claim C1: for every `Review`, however many optional metadata fields are
populated, `to_export_dict` is exactly the two-key record `{id, text}` —
its key list is `["id", "text"]`, its values are the review's id and text,
and it does not depend on any metadata field; `ReviewBatch.to_export_list`
maps every contained review to exactly this shape. -/
theorem c1_export_projection_is_exactly_id_text (r r2 : Review)
    (b : ReviewBatch) (hid : r.id = r2.id) (htext : r.text = r2.text) :
    r.to_export_dict.map Prod.fst = ["id", "text"]
    ∧ r.to_export_dict = [("id", Value.vInt r.id), ("text", Value.vStr r.text)]
    ∧ r.to_export_dict = r2.to_export_dict
    ∧ b.to_export_list = b.reviews.map Review.to_export_dict := by
  refine ⟨rfl, rfl, ?_, rfl⟩
  simp [Review.to_export_dict, hid, htext]

/-- Witness for C1 at concrete reviews: one with rating and author set, one
with none, sharing id and text. -/
theorem c1_export_projection_witness :
    sampleReviewMeta.to_export_dict.map Prod.fst = ["id", "text"]
    ∧ sampleReviewMeta.to_export_dict
        = [("id", Value.vInt sampleReviewMeta.id),
           ("text", Value.vStr sampleReviewMeta.text)]
    ∧ sampleReviewMeta.to_export_dict = sampleReviewPlain.to_export_dict
    ∧ sampleBatch.to_export_list
        = sampleBatch.reviews.map Review.to_export_dict :=
  c1_export_projection_is_exactly_id_text sampleReviewMeta sampleReviewPlain
    sampleBatch rfl rfl

/-- Claim C2 (code bug): the `clean_text` validator tests emptiness before
stripping, so a whitespace-only text is accepted and stored as the empty
string instead of failing — contradicting both the spec and the validator's
own error message that review text cannot be empty.  Empty text does fail,
and non-blank text is stored stripped. -/
theorem c2_whitespace_text_is_accepted :
    Review.validate { id := 1, text := "   ", scraped_at := 0 }
      = Except.ok { id := 1, text := "", scraped_at := 0 }
    ∧ Review.validate { id := 1, text := "", scraped_at := 0 }
      = Except.error "Review text cannot be empty"
    ∧ Review.validate { id := 1, text := "  good product ", scraped_at := 0 }
      = Except.ok { id := 1, text := "good product", scraped_at := 0 } := by
  exact ⟨rfl, rfl, rfl⟩

/-- Claim C3 (code bug): with full-metadata mode the projected dict of any
review contains `scraped_at` as a raw datetime, which `json.dumps` cannot
serialize; `save` therefore raises internally, returns 0 and leaves the
file truncated, so reloading yields `[]` instead of the saved reviews.
Minimal mode round-trips id and text with all optional fields `None`. -/
theorem c3_metadata_roundtrip_loses_reviews :
    (∀ (r : Review) (rs : List Review) (file : FileState),
      JsonStorage.save true (r :: rs) file = (.empty, 0))
    ∧ JsonStorage.load 5
        (JsonStorage.save true [{ id := 1, text := "hi", scraped_at := 0 }]
          .missing).1 = []
    ∧ JsonStorage.save false [{ id := 1, text := "hi", scraped_at := 0 }]
        .missing
      = (.content [[("id", Value.vInt 1), ("text", Value.vStr "hi")]], 1)
    ∧ JsonStorage.load 5
        (JsonStorage.save false [{ id := 1, text := "hi", scraped_at := 0 }]
          .missing).1
      = [{ id := 1, text := "hi", scraped_at := 5 }] := by
  refine ⟨?_, rfl, rfl, rfl⟩
  intro r rs file
  simp [JsonStorage.save, Review.to_full_dict, optField, Value.jsonSerializable]

/-- Claim C10: after every `ReviewBatch.add` or `ReviewBatch.extend`,
`total_count` equals the length of the reviews list, whatever the starting
state; a batch built directly with the default `total_count` satisfies the
invariant exactly when its reviews list is empty. -/
theorem c10_batch_total_count_invariant (b : ReviewBatch) (r : Review)
    (rs : List Review) (t : Nat) :
    (b.add r).total_count = (b.add r).reviews.length
    ∧ (b.extend rs).total_count = (b.extend rs).reviews.length
    ∧ (({ reviews := rs, scraped_at := t } : ReviewBatch).total_count
        = ({ reviews := rs, scraped_at := t } : ReviewBatch).reviews.length
       ↔ rs = []) := by
  refine ⟨rfl, rfl, ?_⟩
  show 0 = rs.length ↔ rs = []
  rw [eq_comm, List.length_eq_zero]

lemma renumber_length (s : Int) (reviews : List Review) :
    (renumber s reviews).length = reviews.length := by
  induction reviews generalizing s with
  | nil => rfl
  | cons r rs ih => simp [renumber, ih]

lemma renumber_getElem? (s : Int) (reviews : List Review) (i : Nat)
    (r : Review) (h : reviews[i]? = some r) :
    (renumber s reviews)[i]?
      = some [("id", Value.vInt (s + i)), ("text", Value.vStr r.text)] := by
  induction reviews generalizing s i with
  | nil => simp at h
  | cons x xs ih =>
    cases i with
    | zero =>
      simp at h
      simp [renumber, h]
    | succ n =>
      simp at h
      have hrec := ih (s + 1) n h
      have harith : s + 1 + (n : Int) = s + ((n + 1 : Nat) : Int) := by
        push_cast
        ring
      simp only [renumber, List.getElem?_cons_succ, hrec, harith]

/-- Claim C8: `export_to_training_format` writes one minimal record per
input review, returns their count, and assigns ids `start_id, start_id+1,
...` in the input list's order, discarding every original id; in particular
with `start_id = 100` and original ids 7, 2, 9 the produced ids are 100,
101, 102. -/
theorem c8_training_export_renumbers (reviews : List Review) (s : Int) :
    (export_to_training_format reviews s).2 = reviews.length
    ∧ (∀ (i : Nat) (r : Review), reviews[i]? = some r →
        ((export_to_training_format reviews s).1)[i]?
          = some [("id", Value.vInt (s + i)), ("text", Value.vStr r.text)])
    ∧ (export_to_training_format threeReviews 100).1.map (fun d => getKey d "id")
        = [some (Value.vInt 100), some (Value.vInt 101), some (Value.vInt 102)] := by
  refine ⟨renumber_length s reviews, ?_, rfl⟩
  intro i r h
  exact renumber_getElem? s reviews i r h

/-- Witness for C8: the record at index 0 of a one-review export starting
at id 50 carries id 50 and the review's text. -/
theorem c8_training_export_witness :
    ((export_to_training_format [sampleReviewMeta] 50).1)[0]?
      = some [("id", Value.vInt 50), ("text", Value.vStr sampleReviewMeta.text)] := by
  have := (c8_training_export_renumbers [sampleReviewMeta] 50).2.1 0
    sampleReviewMeta rfl
  simpa using this

lemma buildSource_ok (name : String) (config : RawSourceEntry)
    (h : ∀ rpm : Int, config.rate_limit_rpm = some rpm → 1 ≤ rpm ∧ rpm ≤ 100) :
    buildSource name config = .ok (specDefaultedSource name config) := by
  unfold buildSource specDefaultedSource
  cases hc : config.rate_limit_rpm with
  | none => simp [hc]
  | some rpm =>
    have := h rpm hc
    simp [hc, this.1, this.2]

lemma buildSources_ok (data : List (String × RawSourceEntry))
    (h : ∀ p ∈ data, ∀ rpm : Int,
      p.2.rate_limit_rpm = some rpm → 1 ≤ rpm ∧ rpm ≤ 100) :
    buildSources data
      = .ok (data.map (fun p => (p.1, specDefaultedSource p.1 p.2))) := by
  induction data with
  | nil => rfl
  | cons p rest ih =>
    have hp := h p (by simp)
    have hrest := ih (fun q hq => h q (by simp [hq]))
    simp [buildSources, buildSource_ok p.1 p.2 hp, hrest]

/-- Counterexample for C7: an existing catalog file with a single source
entry whose `rate_limit_rpm` is present but 0 (outside pydantic's 1..100
bound) makes the whole load raise a validation error, so `load_sources`
does not fall back to defaults for every malformed entry. -/
theorem c7_invalid_rpm_fails_whole_load :
    load_sources true [("foo", { rate_limit_rpm := some 0 })]
      = .error (.validationError "rate_limit_rpm") := by
  rfl

/-- Claim C7 as amended: `load_sources` raises a file-not-found error when
the catalog path does not exist; for an existing file, per-source fields
that are missing fall back to the documented defaults (`enabled=true`,
`rate_limit_rpm=20`, `requires_browser=false`, empty categories), but an
entry whose present `rate_limit_rpm` violates the 1..100 field bound raises
a validation error that fails the whole load (so the load never raises only
when every present `rate_limit_rpm` is within bounds). -/
theorem c7_load_sources_defaults (data : List (String × RawSourceEntry))
    (h : ∀ p ∈ data, ∀ rpm : Int,
      p.2.rate_limit_rpm = some rpm → 1 ≤ rpm ∧ rpm ≤ 100) :
    load_sources false data = .error .fileNotFound
    ∧ load_sources true data
        = .ok { sources := data.map (fun p => (p.1, specDefaultedSource p.1 p.2)) } := by
  refine ⟨rfl, ?_⟩
  simp [load_sources, SourceConfig.from_yaml, buildSources_ok data h]

/-- Witness for C7: a catalog with one entry that sets only `enabled` and
one that sets an in-range `rate_limit_rpm` loads with the defaults filled
in. -/
theorem c7_load_sources_witness :
    load_sources false
        [("a", { enabled := some false }), ("b", { rate_limit_rpm := some 50 })]
      = .error .fileNotFound
    ∧ load_sources true
        [("a", { enabled := some false }), ("b", { rate_limit_rpm := some 50 })]
      = .ok { sources :=
          [("a", { name := "a", enabled := false, scraper := "a",
                   rate_limit_rpm := 20, requires_browser := false,
                   categories := [] }),
           ("b", { name := "b", enabled := true, scraper := "b",
                   rate_limit_rpm := 50, requires_browser := false,
                   categories := [] })] } := by
  have := c7_load_sources_defaults
    [("a", { enabled := some false }), ("b", { rate_limit_rpm := some 50 })]
    (by
      intro p hp rpm hrpm
      simp only [List.mem_cons, List.not_mem_nil, or_false] at hp
      rcases hp with hp | hp
      · subst hp; simp at hrpm
      · subst hp; simp at hrpm; omega)
  simpa [specDefaultedSource] using this

lemma limitReached_none (t : Nat) : limitReached none t = false := rfl

lemma limitReached_zero (t : Nat) : limitReached (some 0) t = false := by
  simp [limitReached]

lemma yieldPage_no_limit (m : Option Int)
    (hm : ∀ t, limitReached m t = false) (rs : List Review) (t : Nat) :
    yieldPage m rs t = (rs, t + rs.length, false) := by
  induction rs generalizing t with
  | nil => simp [yieldPage]
  | cons r rs ih =>
    simp only [yieldPage, hm, Bool.false_eq_true, if_false, ih (t + 1),
      List.length_cons]
    have harith : t + 1 + rs.length = t + (rs.length + 1) := by omega
    rw [harith]

lemma scrapeGo_no_limit (m : Option Int)
    (hm : ∀ t, limitReached m t = false) (pages : List PageResult) (t : Nat) :
    scrapeGo m pages t = (pages.map pageReviews).flatten := by
  induction pages generalizing t with
  | nil => rfl
  | cons page rest ih =>
    cases page with
    | error e => simp [scrapeGo, pageReviews, ih t]
    | ok reviews =>
      simp [scrapeGo, pageReviews, yieldPage_no_limit m hm, ih]

lemma cliCollectUrl_no_limit (m : Option Int)
    (hm : ∀ t, limitReached m t = false) (rs acc : List Review) :
    cliCollectUrl m rs acc = (acc ++ rs, false) := by
  induction rs generalizing acc with
  | nil => simp [cliCollectUrl]
  | cons r rs ih => simp [cliCollectUrl, hm, ih]

lemma cliGo_no_limit (m : Option Int)
    (hm : ∀ t, limitReached m t = false) (urls : List (List PageResult))
    (acc : List Review) :
    cliGo m urls acc
      = acc ++ (urls.map (fun pages => (pages.map pageReviews).flatten)).flatten := by
  induction urls generalizing acc with
  | nil => simp [cliGo]
  | cons pages rest ih =>
    simp [cliGo, scrape_all_pages, scrapeGo_no_limit m hm,
      cliCollectUrl_no_limit m hm, hm, ih]

/-- Claim C9: the limit guard `if max_reviews and ...` treats 0 as falsy,
so `max_reviews = 0` disables the limit entirely in `scrape_all_pages`
(every available review from every page is yielded) and likewise in the
CLI collection loop of `_scrape_async`, instead of yielding zero reviews. -/
theorem c9_max_zero_disables_limit (pages : List PageResult)
    (urls : List (List PageResult)) :
    scrape_all_pages pages (some 0) = scrape_all_pages pages none
    ∧ scrape_all_pages pages (some 0) = (pages.map pageReviews).flatten
    ∧ cliScrapeLoop urls (some 0) = cliScrapeLoop urls none := by
  refine ⟨?_, ?_, ?_⟩
  · rw [scrape_all_pages, scrape_all_pages,
      scrapeGo_no_limit _ limitReached_zero, scrapeGo_no_limit _ limitReached_none]
  · rw [scrape_all_pages, scrapeGo_no_limit _ limitReached_zero]
  · rw [cliScrapeLoop, cliScrapeLoop, cliGo_no_limit _ limitReached_zero,
      cliGo_no_limit _ limitReached_none]

lemma limitReached_pos (M : Nat) (hM : 0 < M) (t : Nat) :
    limitReached (some (M : Int)) t = decide (M ≤ t) := by
  simp only [limitReached]
  rw [show ((M : Int) != 0) = true by simpa using by exact_mod_cast hM.ne',
    Bool.true_and]
  exact decide_eq_decide.mpr (by exact_mod_cast Iff.rfl)

lemma yieldPage_pos (M : Nat) (hM : 0 < M) (rs : List Review) (t : Nat)
    (ht : t < M) :
    yieldPage (some (M : Int)) rs t =
      if t + rs.length < M then (rs, t + rs.length, false)
      else (rs.take (M - t), M, true) := by
  induction rs generalizing t with
  | nil =>
    rw [if_pos (by simpa using ht)]
    simp [yieldPage]
  | cons r rs ih =>
    rw [yieldPage, limitReached_pos M hM]
    by_cases hstop : M ≤ t + 1
    · rw [if_pos (by simpa using hstop)]
      rw [if_neg (by simp only [List.length_cons]; omega)]
      have h1 : M - t = 1 := by omega
      have h2 : M = t + 1 := by omega
      simp [h1, h2]
    · rw [if_neg (by simpa using hstop)]
      have ht1 : t + 1 < M := by omega
      rw [ih (t + 1) ht1]
      by_cases h2 : t + 1 + rs.length < M
      · rw [if_pos h2, if_pos (by simp only [List.length_cons]; omega)]
        have harith : t + 1 + rs.length = t + (rs.length + 1) := by omega
        simp [harith]
      · rw [if_neg h2, if_neg (by simp only [List.length_cons]; omega)]
        have h3 : M - t = (M - (t + 1)) + 1 := by omega
        rw [h3, List.take_succ_cons]

lemma scrapeGo_pos (M : Nat) (hM : 0 < M) (pages : List PageResult) (t : Nat)
    (ht : t < M) :
    scrapeGo (some (M : Int)) pages t
      = ((pages.map pageReviews).flatten).take (M - t) := by
  induction pages generalizing t with
  | nil => simp [scrapeGo]
  | cons page rest ih =>
    cases page with
    | error e => simp [scrapeGo, pageReviews, ih t ht]
    | ok reviews =>
      simp only [scrapeGo, List.map_cons, pageReviews, List.flatten_cons]
      rw [yieldPage_pos M hM reviews t ht]
      by_cases h2 : t + reviews.length < M
      · rw [if_pos h2]
        simp only [Bool.false_eq_true, if_false]
        rw [List.take_append_eq_append_take,
          List.take_of_length_le (show reviews.length ≤ M - t by omega)]
        rw [ih (t + reviews.length) h2]
        have harith : M - t - reviews.length = M - (t + reviews.length) := by
          omega
        rw [harith]
      · rw [if_neg h2]
        simp only [if_true]
        rw [List.take_append_eq_append_take,
          show M - t - reviews.length = 0 by omega, List.take_zero,
          List.append_nil]

/-- Claim C4: within one `scrape_all_pages` call the pages are visited in
pagination order and reviews are yielded in per-page discovery order — with
a positive `max_reviews = m` the output is exactly the first `m` reviews of
the concatenation of the pages' review lists (so exactly `m` are yielded
when enough are available, and a failing page contributes zero reviews
while the remaining pages are still visited); with no limit the output is
the full concatenation. -/
theorem c4_pages_visited_in_order (pages : List PageResult) (m : Int)
    (hm : 0 < m) :
    scrape_all_pages pages (some m)
      = ((pages.map pageReviews).flatten).take m.toNat
    ∧ (scrape_all_pages pages (some m)).length
        = min m.toNat ((pages.map pageReviews).flatten).length
    ∧ scrape_all_pages pages none = (pages.map pageReviews).flatten := by
  have hM : 0 < m.toNat := by omega
  have hcast : ((m.toNat : Nat) : Int) = m := Int.toNat_of_nonneg hm.le
  have h1 : scrape_all_pages pages (some m)
      = ((pages.map pageReviews).flatten).take m.toNat := by
    conv_lhs => rw [← hcast]
    rw [scrape_all_pages, scrapeGo_pos m.toNat hM pages 0 hM, Nat.sub_zero]
  refine ⟨h1, ?_, ?_⟩
  · rw [h1, List.length_take]
  · rw [scrape_all_pages, scrapeGo_no_limit _ limitReached_none]

/-- Witness for C4: on three pages carrying reviews 1,2 / failure / 3,4
with `max_reviews = 3`, exactly reviews 1, 2, 3 are yielded in order. -/
theorem c4_pages_visited_witness :
    scrape_all_pages samplePages (some 3)
      = [pageReview 1, pageReview 2, pageReview 3] := by
  have h := (c4_pages_visited_in_order samplePages 3 (by norm_num)).1
  exact h.trans rfl

lemma step_retry_of_fails (o : Outcome) (h : stepFails o = true) :
    step o = .retry (stepExc o) := by
  revert h
  unfold stepFails stepExc
  cases hs : step o <;> simp

lemma executeGo_zero (outcomes : Nat → Outcome) (attempt : Nat) :
    executeGo outcomes 0 attempt
      = match step (outcomes attempt) with
        | .ret o => (.finished o, attempt + 1)
        | .raiseNow e => (.raised e, attempt + 1)
        | .retry e => (.raised e, attempt + 1) := rfl

lemma executeGo_succ (outcomes : Nat → Outcome) (r attempt : Nat) :
    executeGo outcomes (r + 1) attempt
      = match step (outcomes attempt) with
        | .ret o => (.finished o, attempt + 1)
        | .raiseNow e => (.raised e, attempt + 1)
        | .retry e => executeGo outcomes r (attempt + 1) := rfl

lemma executeGo_all_fail (outcomes : Nat → Outcome)
    (hfail : ∀ i, stepFails (outcomes i) = true) (remaining : Nat) :
    ∀ attempt : Nat,
      executeGo outcomes remaining attempt
        = (.raised (stepExc (outcomes (attempt + remaining))),
           attempt + remaining + 1) := by
  induction remaining with
  | zero =>
    intro attempt
    rw [executeGo_zero, step_retry_of_fails _ (hfail attempt)]
    simp
  | succ r ih =>
    intro attempt
    rw [executeGo_succ, step_retry_of_fails _ (hfail attempt)]
    show executeGo outcomes r (attempt + 1) = _
    rw [ih (attempt + 1)]
    have harith : attempt + 1 + r = attempt + (r + 1) := by omega
    rw [harith]

lemma executeGo_raiseNow (outcomes : Nat → Outcome) (remaining attempt : Nat)
    (e : Outcome) (h : step (outcomes attempt) = .raiseNow e) :
    executeGo outcomes remaining attempt = (.raised e, attempt + 1) := by
  cases remaining with
  | zero => rw [executeGo_zero, h]
  | succ r => rw [executeGo_succ, h]

/-- Claim C5: a `RetryHandler` with `max_retries = 3` against an operation
that always fails with a retryable error invokes it exactly 4 times
(1 initial + 3 retries) and then re-raises the exception of the last
attempt; every computed backoff delay (defaults: base 1s, factor 2, cap
60s) lies in [0.1, 60] and the delays of successive attempts are
non-decreasing for any jitter draws; a non-retryable HTTP status error is
re-raised immediately after a single invocation. -/
theorem c5_retry_handler_behavior
    (failOutcomes outcomes : Nat → Outcome) (s mr a : Nat) (u v : Rat)
    (hfail : ∀ i, stepFails (failOutcomes i) = true)
    (hs : retryable_status s = false)
    (h0 : outcomes 0 = .httpError s)
    (hu0 : 0 ≤ u) (hu1 : u ≤ 1) (hv0 : 0 ≤ v) (hv1 : v ≤ 1) :
    RetryHandler.execute 3 failOutcomes
      = (.raised (stepExc (failOutcomes 3)), 4)
    ∧ RetryHandler.execute mr outcomes = (.raised (.httpError s), 1)
    ∧ 1 / 10 ≤ calculate_delay 1 60 2 a u
    ∧ calculate_delay 1 60 2 a u ≤ 60
    ∧ calculate_delay 1 60 2 a u ≤ calculate_delay 1 60 2 (a + 1) v := by
  refine ⟨?_, ?_, ?_, ?_, ?_⟩
  · have h := executeGo_all_fail failOutcomes hfail 3 0
    simpa [RetryHandler.execute] using h
  · have hstep : step (outcomes 0) = .raiseNow (.httpError s) := by
      rw [h0]
      simp [step, hs]
    exact executeGo_raiseNow outcomes mr 0 _ hstep
  · simp only [calculate_delay]
    exact le_max_left _ _
  · simp only [calculate_delay]
    exact max_le (by norm_num) (min_le_right _ _)
  · simp only [calculate_delay]
    have hp : (0 : Rat) < 2 ^ a := by positivity
    have key : 1 * 2 ^ a + 1 * 2 ^ a * (1 / 4) * (2 * u - 1)
        ≤ 1 * 2 ^ (a + 1) + 1 * 2 ^ (a + 1) * (1 / 4) * (2 * v - 1) := by
      rw [pow_succ]
      nlinarith [hp, hu1, hv0]
    exact max_le_max le_rfl (min_le_min key le_rfl)

/-- Witness for C5: an always-failing network error is invoked 4 times and
re-raised; a 404 is raised after one invocation; the delay bounds hold at
attempt 0 with extreme jitter draws. -/
theorem c5_retry_handler_witness :
    RetryHandler.execute 3 (fun _ => .netError 7)
      = (.raised (.netError 7), 4)
    ∧ RetryHandler.execute 5 (fun _ => .httpError 404)
      = (.raised (.httpError 404), 1)
    ∧ 1 / 10 ≤ calculate_delay 1 60 2 0 0
    ∧ calculate_delay 1 60 2 0 0 ≤ 60
    ∧ calculate_delay 1 60 2 0 0 ≤ calculate_delay 1 60 2 (0 + 1) 1 := by
  have h := c5_retry_handler_behavior (fun _ => .netError 7)
    (fun _ => .httpError 404) 404 5 0 0 1 (fun _ => rfl) rfl rfl
    (by norm_num) (by norm_num) (by norm_num) (by norm_num)
  simpa [stepExc, step] using h

lemma record_failure_closed (cb : CircuitBreaker) (e : BreakerEntry)
    (t : Rat) (h : e.state = .closed) :
    record_failure cb e t
      = (if e.failures + 1 ≥ cb.failure_threshold then
          { e with failures := e.failures + 1, lastFailureTime := t,
                   state := .opened }
        else { e with failures := e.failures + 1, lastFailureTime := t }) := by
  simp only [record_failure, h]

lemma fail_iter (cb : CircuitBreaker) (t : Rat)
    (hth : cb.failure_threshold = 5) :
    ∀ n, n ≤ 5 →
      ((fun x => record_failure cb x t)^[n] {}).failures = n
      ∧ ((fun x => record_failure cb x t)^[n] {}).state
          = (if n < 5 then CBState.closed else CBState.opened) := by
  intro n
  induction n with
  | zero => exact fun _ => ⟨rfl, rfl⟩
  | succ k ih =>
    intro hk
    obtain ⟨hf, hs⟩ := ih (by omega)
    have hstate : ((fun x => record_failure cb x t)^[k] {}).state = .closed := by
      rw [hs, if_pos (by omega)]
    rw [Function.iterate_succ_apply',
      record_failure_closed cb _ t hstate, hf, hth]
    by_cases hk5 : k + 1 ≥ 5
    · rw [if_pos hk5]
      exact ⟨rfl, by rw [if_neg (by omega)]⟩
    · rw [if_neg hk5]
      exact ⟨rfl, by rw [if_pos (by omega)]; exact hstate⟩

lemma record_success_halfOpen (cb : CircuitBreaker) (e : BreakerEntry)
    (h : e.state = .halfOpen) :
    record_success cb e
      = (if e.successes + 1 ≥ cb.success_threshold then
          { e with successes := e.successes + 1, state := .closed,
                   failures := 0 }
        else { e with successes := e.successes + 1 }) := by
  simp only [record_success, h]

lemma success_iter (cb : CircuitBreaker) (eh : BreakerEntry)
    (hh : eh.state = .halfOpen) (hs0 : eh.successes = 0)
    (hst : 0 < cb.success_threshold) :
    ∀ k, k ≤ cb.success_threshold →
      (k < cb.success_threshold →
        ((record_success cb)^[k] eh).state = .halfOpen
        ∧ ((record_success cb)^[k] eh).successes = k)
      ∧ (k = cb.success_threshold →
        ((record_success cb)^[k] eh).state = .closed) := by
  intro k
  induction k with
  | zero =>
    exact fun _ => ⟨fun _ => ⟨hh, hs0⟩, fun h0 => by omega⟩
  | succ k ih =>
    intro hk
    obtain ⟨hlt, _⟩ := ih (by omega)
    obtain ⟨hstate, hsucc⟩ := hlt (by omega)
    rw [Function.iterate_succ_apply', record_success_halfOpen cb _ hstate,
      hsucc]
    constructor
    · intro hklt
      rw [if_neg (by omega)]
      exact ⟨hstate, rfl⟩
    · intro hkeq
      rw [if_pos (by omega)]

/-- Claim C6: the circuit breaker with `failure_threshold = 5` reaches OPEN
exactly on the 5th consecutive recorded failure (remaining CLOSED before,
with a CLOSED success resetting the count); while OPEN, `can_proceed`
rejects as long as at most `recovery_timeout` has elapsed since the last
failure and moves to HALF_OPEN (granting the request) once more than
`recovery_timeout` has elapsed; any failure recorded while HALF_OPEN
returns it to OPEN regardless of the successes so far; and
`success_threshold` consecutive HALF_OPEN successes return it to CLOSED. -/
theorem c6_circuit_breaker_state_machine (cb : CircuitBreaker)
    (e eo eh : BreakerEntry) (now t : Rat) (n : Nat)
    (hth : cb.failure_threshold = 5) (hst : 0 < cb.success_threshold) :
    (n < 5 → ((fun x => record_failure cb x t)^[n] {}).state = .closed)
    ∧ ((fun x => record_failure cb x t)^[5] {}).state = .opened
    ∧ (e.state = .closed → record_success cb e = { e with failures := 0 })
    ∧ (eo.state = .opened → now - eo.lastFailureTime ≤ cb.recovery_timeout →
        can_proceed cb eo now = (false, eo))
    ∧ (eo.state = .opened → cb.recovery_timeout < now - eo.lastFailureTime →
        can_proceed cb eo now
          = (true, { eo with state := .halfOpen, successes := 0 }))
    ∧ (eh.state = .halfOpen → (record_failure cb eh now).state = .opened)
    ∧ (eh.state = .halfOpen → eh.successes = 0 →
        (∀ k, k < cb.success_threshold →
          ((record_success cb)^[k] eh).state = .halfOpen)
        ∧ ((record_success cb)^[cb.success_threshold] eh).state = .closed) := by
  refine ⟨?_, ?_, ?_, ?_, ?_, ?_, ?_⟩
  · intro hn
    rw [(fail_iter cb t hth n (by omega)).2, if_pos hn]
  · rw [(fail_iter cb t hth 5 le_rfl).2, if_neg (by omega)]
  · intro h
    simp only [record_success, h]
  · intro h hle
    simp only [can_proceed, h]
    rw [if_neg (not_lt.mpr hle)]
  · intro h hgt
    simp only [can_proceed, h]
    rw [if_pos hgt]
  · intro h
    simp only [record_failure, h]
  · intro hh hs0
    refine ⟨fun k hk => ((success_iter cb eh hh hs0 hst k (by omega)).1 hk).1,
      (success_iter cb eh hh hs0 hst cb.success_threshold le_rfl).2 rfl⟩

/-- Witness for C6 at the default configuration (thresholds 5 and 3,
timeout 60): five fresh failures open the breaker; an OPEN key probed 90
seconds after its last failure moves to HALF_OPEN; a HALF_OPEN failure
re-opens; three HALF_OPEN successes close. -/
theorem c6_circuit_breaker_witness :
    ((fun x => record_failure {} x 1)^[5] ({} : BreakerEntry)).state
      = CBState.opened
    ∧ can_proceed {} { state := .opened, lastFailureTime := 10 } 100
        = (true, { state := CBState.halfOpen, successes := 0,
                   lastFailureTime := 10 })
    ∧ (record_failure {} { state := .halfOpen, successes := 2 } 3).state
        = CBState.opened
    ∧ ((record_success {})^[3] ({ state := .halfOpen } : BreakerEntry)).state
        = CBState.closed := by
  obtain ⟨h1, h2, h3, h4, h5, h6, h7⟩ :=
    c6_circuit_breaker_state_machine {} {}
      { state := .opened, lastFailureTime := 10 }
      { state := .halfOpen, successes := 2 } 100 1 0 rfl (by norm_num)
  refine ⟨h2, ?_, h6 rfl, ?_⟩
  · have := h5 rfl (by norm_num)
    simpa using this
  · obtain ⟨h1b, h2b, h3b, h4b, h5b, h6b, h7b⟩ :=
      c6_circuit_breaker_state_machine {} {}
        { state := .opened, lastFailureTime := 10 }
        { state := .halfOpen } 100 1 0 rfl (by norm_num)
    exact (h7b rfl rfl).2

end ReviewScraper
